import Mathlib

/-!
# Verification of the vul-scanner ingestion pipeline

Shallow embedding of `src/service/vulnerabality.go` (package `service`) of the
`souben/vul-scanner` repository, together with proofs of the specification
claims about it.

Conventions of the embedding:
* Go strings are Lean `String`s; machine integers do not overflow in any code
  path modelled here, so `Nat`/`Int` are used directly.
* `time.Now()` is modelled by a monotone tick counter (`Nat`) threaded through
  the functions: each call returns the current tick and advances the clock, so
  two distinct calls always yield distinct timestamps.
* The external world (HTTP transport, JSON decoding by `encoding/json`, the
  database) is passed in as explicit function parameters describing the
  outcome of each external call.
* Goroutines launched by `processFilesInParallel` are sequentialised in
  submission order for the data-flow claims; the concurrency bound itself is
  modelled separately as a labelled transition system (`PoolStep`).
-/

namespace VulScanner

/-- The anonymous `struct { Name, Path, URL string }` item shape produced by
the GitHub code-search response and consumed by `processFile`. -/
structure FileItem where
  name : String
  path : String
  url : String
  deriving DecidableEq, Repr

/-- Modelled from the spec: `repo.Vulnerabality` — the record type of the
`souben/kai/repo` package is not under `src/`; its fields are taken from the
spec's data model (identifier, severity, numeric score, status, package name,
current/fixed version, description, published timestamp, link, risk factors)
plus the two pipeline-assigned metadata fields (source file, scan time). -/
structure Vulnerabality where
  id : String
  severity : String
  cvss : Rat
  status : String
  packageName : String
  currentVersion : String
  fixedVersion : String
  description : String
  publishedDate : String
  link : String
  riskFactors : List String
  sourceFile : String
  scanTime : Nat
  deriving DecidableEq, Repr

/-- Modelled from the spec: the inner `scanResults` object of
`repo.ScanPayloads` (wire shape decoded from a fetched file). -/
structure ScanResults where
  vulnerabilities : List Vulnerabality
  deriving DecidableEq, Repr

/-- Modelled from the spec: `repo.ScanPayloads` — one block of the raw file
payload, holding zero or more vulnerability entries. -/
structure ScanPayloads where
  scanResults : ScanResults
  deriving DecidableEq, Repr

/-- Modelled from the spec: `repo.ScanResult` — the scan summary returned to
the caller. -/
structure ScanResult where
  processedFiles : Nat
  scanTime : Nat
  sourceRepo : String
  sourceFiles : List String
  deriving DecidableEq, Repr

/-- Default value of the `GITHUB_API` tunable
(`getEnvOrDefault "GITHUB_API" "https://api.github.com/search/code"`). -/
def GITHUB_API : String := "https://api.github.com/search/code"

/-! ## Environment parsing (`getEnvAsIntOrDefault`)

`fmt.Sscanf(value, "%d", &result)` scans optional leading white space, an
optional sign and a non-empty run of decimal digits; on a scan error it leaves
`result` at its zero value, and the Go helper ignores the error, so a
non-numeric value yields `0`. -/

/-- Decimal digits consumed by the `%d` verb: `parseDigits cs acc` folds the
leading digits of `cs` onto `acc`, returning the value and the rest. -/
def parseDigits : List Char → Nat → Nat × List Char
  | c :: cs, acc =>
    if c.isDigit then parseDigits cs (acc * 10 + (c.toNat - '0'.toNat))
    else (acc, c :: cs)
  | [], acc => (acc, [])

/-- `fmt.Sscanf(value, "%d", &result)`: skip leading spaces, read an optional
sign and at least one digit. `none` models a scan error (no digits found),
in which case `result` keeps its zero value. -/
def sscanfD (s : String) : Option Int :=
  let cs := s.data.dropWhile (fun c => c = ' ' ∨ c = '\t' ∨ c = '\n' ∨ c = '\r')
  match cs with
  | '-' :: rest =>
    match rest with
    | c :: _ => if c.isDigit then some (-(parseDigits rest 0).1) else none
    | [] => none
  | '+' :: rest =>
    match rest with
    | c :: _ => if c.isDigit then some ((parseDigits rest 0).1 : Int) else none
    | [] => none
  | c :: _ => if c.isDigit then some ((parseDigits cs 0).1 : Int) else none
  | [] => none

/-- `getEnvAsIntOrDefault`: an unset variable reads as `""` through
`os.Getenv`; an empty value returns the default, otherwise the `Sscanf`
result is returned with the error discarded (`0` on scan failure). -/
def getEnvAsIntOrDefault (value : String) (defaultValue : Int) : Int :=
  if value = "" then defaultValue
  else ((sscanfD value).getD 0)

/-- `MAX_RETRIES = getEnvAsIntOrDefault("MAX_RETRIES", 2)`, as a function of
the environment (a map from variable name to value, `""` meaning unset). -/
def MAX_RETRIES (env : String → String) : Int :=
  getEnvAsIntOrDefault (env "MAX_RETRIES") 2

/-- `CONCURRENCY = getEnvAsIntOrDefault("CONCURRENCY", 3)`. -/
def CONCURRENCY (env : String → String) : Int :=
  getEnvAsIntOrDefault (env "CONCURRENCY") 3

/-- `Port: getEnvAsIntOrDefault("DB_PORT", 5432)` from `InitDatabase`. -/
def DB_PORT (env : String → String) : Int :=
  getEnvAsIntOrDefault (env "DB_PORT") 5432

/-! ## Search-query construction (`buildGitHubSearchURL`) -/

/-- `buildGitHubSearchURL`: `log.Fatal` on an empty repository name is
modelled by `none`; otherwise the query starts from
`GITHUB_API?q=repo:<repo>`, appends `+filename:<f>.json` for every provided
filename, and appends `+extension:json` only when no filenames were given. -/
def buildGitHubSearchURL (repoName : String) (filenames : List String) :
    Option String :=
  if repoName = "" then none
  else
    let url := GITHUB_API ++ "?q=repo:" ++ repoName
    let url := filenames.foldl (fun u f => u ++ "+filename:" ++ f ++ ".json") url
    some (if filenames.length = 0 then url ++ "+extension:json" else url)

/-- The spec's description of the hint branch: one `filename:<hint>.json`
term per hint, written independently of the code's `foldl`. -/
def filenameTerms (filenames : List String) : String :=
  String.join (filenames.map (fun f => "+filename:" ++ f ++ ".json"))

theorem foldl_string_append (l : List String) (a : String) :
    l.foldl (· ++ ·) a = a ++ l.foldl (· ++ ·) "" := by
  induction l generalizing a with
  | nil => simp
  | cons x xs ih =>
    rw [List.foldl_cons, ih, List.foldl_cons, ih ("" ++ x)]
    simp [String.append_assoc]

theorem foldl_filenameTerms (filenames : List String) (u : String) :
    filenames.foldl (fun u f => u ++ "+filename:" ++ f ++ ".json") u =
      u ++ filenameTerms filenames := by
  induction filenames generalizing u with
  | nil => simp [filenameTerms, String.join]
  | cons f fs ih =>
    rw [List.foldl_cons, ih]
    simp only [filenameTerms, String.join, List.map_cons, List.foldl_cons]
    rw [foldl_string_append ((fs.map fun f => "+filename:" ++ f ++ ".json"))
      ("" ++ ("+filename:" ++ f ++ ".json"))]
    simp [String.append_assoc]

/-! ## Events

Observable actions of one scan invocation: backoff sleeps, search and fetch
attempts, JSON decodes of fetched payloads, and database writes. -/

inductive Event
  | sleep (seconds : Nat)
  | searchAttempt (attempt : Nat)
  | fetchAttempt (attempt : Nat)
  | decodeFile (payload : String)
  | saveRecords (records : List Vulnerabality)
  deriving DecidableEq, Repr

/-- Outcome of one attempt of the search loop (`searchGitHubFiles`,
lines 172–211): request-construction error, transport error, non-200 status,
body-read error, body-decode error, or a decoded item list. -/
inductive SearchOutcome
  | reqError
  | transportError
  | statusError (code : Nat) (body : String)
  | readError
  | decodeError
  | ok (items : List FileItem)
  deriving DecidableEq, Repr

/-- `true` iff the attempt reached the `return response.Items, nil`. -/
def SearchOutcome.isOk : SearchOutcome → Bool
  | .ok _ => true
  | _ => false

/-- Outcome of one attempt of the download loop in `processFile`
(lines 288–326). `readError` models `io.ReadAll` failing after a 200 status:
it assigns the partial data read so far and retries. -/
inductive FetchOutcome
  | reqError
  | transportError
  | statusError (code : Nat) (body : String)
  | readError (partialBody : String)
  | ok (body : String)
  deriving DecidableEq, Repr

/-- `true` iff the attempt reaches the `break` (status 200 and a full read). -/
def FetchOutcome.isOk : FetchOutcome → Bool
  | .ok _ => true
  | _ => false

/-- `true` iff the attempt writes to the outer `data` variable at all
(`data, err = io.ReadAll(res.Body)` runs only after a 200 status). -/
def FetchOutcome.writesData : FetchOutcome → Bool
  | .ok _ => true
  | .readError _ => true
  | _ => false

/-- Per-unit failure causes of `processFile`. `downloadFailed` embeds the
return at line 329 (`"failed to download file after %d attempts"`); it is kept
for fidelity although, as proved below, it is unreachable because the loop
shadows the outer `err`. `parseError` embeds line 338
(`"FFFFailed to parse file: %w %v"`, carrying the whole payload text), and
`saveFailed` line 360. -/
inductive UnitError
  | downloadFailed (attemptsReported : Nat) (wrappedCause : Option String)
  | parseError (payloadShown : String)
  | saveFailed (msg : String)
  deriving DecidableEq, Repr

/-- Invocation-level failures of `Scan`. `searchFailed` is line 213; its
`wrappedCause` is the outer `err` of `searchGitHubFiles`, which is never
assigned inside the loop (all inner bindings are `:=` re-declarations) and is
therefore `none`. `allFilesFailed` is line 262, carrying
`errorsOccurred[0]`; `emptyItemsIndexPanic` stands for the index-out-of-range
panic that `errorsOccurred[0]` would raise on an empty slice. -/
inductive PipelineError
  | initDatabaseFailed (msg : String)
  | noToken
  | fatalEmptyRepoName
  | searchFailed (attemptsReported : Nat) (wrappedCause : Option String)
  | allFilesFailed (firstPath : String) (firstCause : UnitError)
  | emptyItemsIndexPanic
  deriving DecidableEq, Repr

/-! ## The search retry loop (`searchGitHubFiles`, lines 162–214) -/

/-- The `for attempt := 0; attempt <= MAX_RETRIES; attempt++` loop of
`searchGitHubFiles`. The first argument is the remaining iteration count
(`MAX_RETRIES + 1 - attempt`, so the loop guard `attempt <= MAX_RETRIES`
becomes fuel exhaustion), the second the current attempt number: the loop
sleeps `attempt` seconds before every attempt but the first, runs the
attempt, returns the items on success, otherwise continues; `none` after the
last attempt. -/
def searchLoop (att : Nat → SearchOutcome) :
    Nat → Nat → List Event × Option (List FileItem)
  | 0, _ => ([], none)
  | fuel + 1, attempt =>
    let pre : List Event := if 0 < attempt then [.sleep attempt] else []
    match att attempt with
    | .ok items => (pre ++ [.searchAttempt attempt], some items)
    | _ =>
      let rest := searchLoop att fuel (attempt + 1)
      (pre ++ [.searchAttempt attempt] ++ rest.1, rest.2)

/-- `searchGitHubFiles`: run the retry loop from attempt 0 (iteration budget
`MAX_RETRIES + 1`); if it never succeeds, return the aggregate error of
line 213. The wrapped cause is the outer `err`, still `nil` after the loop. -/
def searchGitHubFiles (maxRetries : Nat) (att : Nat → SearchOutcome) :
    List Event × Except PipelineError (List FileItem) :=
  let run := searchLoop att (maxRetries + 1) 0
  match run.2 with
  | some items => (run.1, .ok items)
  | none => (run.1, .error (.searchFailed (maxRetries + 1) none))

/-! ## The download retry loop and `processFile` (lines 277–365) -/

/-- The download loop of `processFile`, threading the outer `data` variable
(first argument: remaining iteration count, as in `searchLoop`): a full read
(`ok`) breaks out with the body; a partial read (`readError`) stores the
partial body and retries; any other failure retries with `data` unchanged.
The outer `err` is never assigned by the loop body (every inner binding
re-declares `err` with `:=`), so the loop has no error component. -/
def fetchLoop (att : Nat → FetchOutcome) :
    Nat → Nat → String → List Event × String
  | 0, _, data => ([], data)
  | fuel + 1, attempt, data =>
    let pre : List Event := if 0 < attempt then [.sleep attempt] else []
    match att attempt with
    | .ok body => (pre ++ [.fetchAttempt attempt], body)
    | .readError partialBody =>
      let rest := fetchLoop att fuel (attempt + 1) partialBody
      (pre ++ [.fetchAttempt attempt] ++ rest.1, rest.2)
    | _ =>
      let rest := fetchLoop att fuel (attempt + 1) data
      (pre ++ [.fetchAttempt attempt] ++ rest.1, rest.2)

/-- External collaborators of one scan invocation: the retry budget, the JSON
decoder (`json.Unmarshal` into `[]repo.ScanPayloads`, `none` = decode error)
and the storage sink (`database.SaveVulnerabilities`, `some msg` = error). -/
structure PipelineEnv where
  maxRetries : Nat
  decode : String → Option (List ScanPayloads)
  save : List Vulnerabality → Option String

/-- Lines 342–353: for every block with a non-zero number of vulnerabilities,
append each record with the source file path and the scan time written into
its metadata fields; blocks with zero records are skipped (`continue`). -/
def attachMeta (path : String) (scanTime : Nat) :
    List ScanPayloads → List Vulnerabality
  | [] => []
  | scanResult :: rest =>
    (if scanResult.scanResults.vulnerabilities.length = 0 then []
     else
       scanResult.scanResults.vulnerabilities.map
         (fun payload =>
           { payload with sourceFile := path, scanTime := scanTime })) ++
      attachMeta path scanTime rest

/-- `processFile`: download with retries, then — since the `if err != nil`
check of line 328 reads the outer `err`, which the loop never assigns —
always fall through to `json.Unmarshal`; on decode failure return the parse
error carrying the whole payload; on success stamp the records with the path
and a `time.Now()` tick taken in this call, and save them when non-empty. -/
def processFile (env : PipelineEnv) (att : Nat → FetchOutcome)
    (item : FileItem) (clock : Nat) :
    Except UnitError Unit × Nat × List Event :=
  let fetched := fetchLoop att (env.maxRetries + 1) 0 ""
  let data := fetched.2
  match env.decode data with
  | none => (.error (.parseError data), clock, fetched.1 ++ [.decodeFile data])
  | some fileContent =>
    let scanTime := clock
    let vulnerabilities := attachMeta item.path scanTime fileContent
    if 0 < vulnerabilities.length then
      match env.save vulnerabilities with
      | some msg =>
        (.error (.saveFailed msg), clock + 1,
          fetched.1 ++ [.decodeFile data, .saveRecords vulnerabilities])
      | none =>
        (.ok (), clock + 1,
          fetched.1 ++ [.decodeFile data, .saveRecords vulnerabilities])
    else (.ok (), clock + 1, fetched.1 ++ [.decodeFile data])

/-! ## The coordinator (`processFilesInParallel`, lines 217–274, and `Scan`,
lines 96–138)

The goroutines are sequentialised in submission order: each unit's
fetch→parse→store runs to completion before the next starts, which realises
one legal interleaving of the mutex-protected aggregation. -/

/-- The per-item loop of `processFilesInParallel`: run `processFile` for each
item, appending the item's path to `processedFiles` on success and
`(path, cause)` — the `"error processing %s: %w"` wrapper of line 250 — to
`errorsOccurred` on failure. Returns both lists, the final clock and the
event trace. -/
def processLoop (env : PipelineEnv) (attOf : FileItem → Nat → FetchOutcome) :
    List FileItem → Nat →
      List String × List (String × UnitError) × Nat × List Event
  | [], clock => ([], [], clock, [])
  | item :: rest, clock =>
    let one := processFile env (attOf item) item clock
    let more := processLoop env attOf rest one.2.1
    match one.1 with
    | .ok _ =>
      (item.path :: more.1, more.2.1, more.2.2.1, one.2.2 ++ more.2.2.2)
    | .error e =>
      (more.1, (item.path, e) :: more.2.1, more.2.2.1, one.2.2 ++ more.2.2.2)

/-- `processFilesInParallel`: run all units, then — line 261 — if the number
of errors equals the number of items, fail with `errorsOccurred[0]` wrapped
in the aggregate error; otherwise build the `ScanResult` of lines 266–271
with a fresh `time.Now()` tick. -/
def processFilesInParallel (env : PipelineEnv)
    (attOf : FileItem → Nat → FetchOutcome) (items : List FileItem)
    (repoName : String) (clock : Nat) :
    Except PipelineError ScanResult × Nat × List Event :=
  let run := processLoop env attOf items clock
  let processedFiles := run.1
  let errorsOccurred := run.2.1
  if errorsOccurred.length = items.length then
    match errorsOccurred with
    | first :: _ =>
      (.error (.allFilesFailed first.1 first.2), run.2.2.1, run.2.2.2)
    | [] => (.error .emptyItemsIndexPanic, run.2.2.1, run.2.2.2)
  else
    (.ok { processedFiles := processedFiles.length, scanTime := run.2.2.1,
           sourceRepo := repoName, sourceFiles := processedFiles },
      run.2.2.1 + 1, run.2.2.2)

/-- `Scan`: initialise the database if unset (fail on its error), require a
token, build the search URL (`log.Fatal` on an empty repository name), search
with retries, return the clean empty summary of lines 121–129 when no items
were found, and otherwise hand the items to `processFilesInParallel`. -/
def Scan (env : PipelineEnv) (databaseSet : Bool) (initResult : Option String)
    (token : String) (searchAtt : Nat → SearchOutcome)
    (attOf : FileItem → Nat → FetchOutcome) (repoName : String)
    (filenames : List String) (clock : Nat) :
    Except PipelineError ScanResult × Nat × List Event :=
  match databaseSet, initResult with
  | false, some msg => (.error (.initDatabaseFailed msg), clock, [])
  | _, _ =>
    if token = "" then (.error .noToken, clock, [])
    else
      match buildGitHubSearchURL repoName filenames with
      | none => (.error .fatalEmptyRepoName, clock, [])
      | some _url =>
        let search := searchGitHubFiles env.maxRetries searchAtt
        match search.2 with
        | .error e => (.error e, clock, search.1)
        | .ok items =>
          if items.length = 0 then
            (.ok { processedFiles := 0, scanTime := clock,
                   sourceRepo := repoName, sourceFiles := [] },
              clock + 1, search.1)
          else
            let run := processFilesInParallel env attOf items repoName clock
            (run.1, run.2.1, search.1 ++ run.2.2)

/-- `Filter` (lines 368–384): initialise the database if unset (propagating
its error), then call `GetVulnerabilities`; on a storage error the code
returns `[]repo.Vulnerabality{}, nil` — an empty successful result. -/
def Filter (databaseSet : Bool) (initResult : Option String)
    (getResult : Except String (List Vulnerabality)) :
    Except String (List Vulnerabality) :=
  match databaseSet, initResult with
  | false, some msg => .error msg
  | _, _ =>
    match getResult with
    | .error _ => .ok []
    | .ok vulnerabilities => .ok vulnerabilities

/-! ## Observables of traces -/

/-- Number of search attempts recorded in a trace. -/
def searchAttemptCount (evs : List Event) : Nat :=
  (evs.filter fun e => match e with | .searchAttempt _ => true | _ => false).length

/-- Number of fetch attempts recorded in a trace. -/
def fetchAttemptCount (evs : List Event) : Nat :=
  (evs.filter fun e => match e with | .fetchAttempt _ => true | _ => false).length

/-- Number of payload decodes recorded in a trace. -/
def decodeCount (evs : List Event) : Nat :=
  (evs.filter fun e => match e with | .decodeFile _ => true | _ => false).length

/-- The backoff sleeps of a trace, in order. -/
def sleepsOf (evs : List Event) : List Nat :=
  evs.filterMap fun e => match e with | .sleep n => some n | _ => none

/-- The record batches handed to storage, in order. -/
def savedBatches (evs : List Event) : List (List Vulnerabality) :=
  evs.filterMap fun e => match e with | .saveRecords rs => some rs | _ => none

/-- The expected trace of a run of a retry loop that performs `fuel`
consecutive failing attempts starting at number `a`: a sleep of `a` time
units before every attempt except attempt 0, then the attempt itself. -/
def attemptTrace (mk : Nat → Event) : Nat → Nat → List Event
  | _, 0 => []
  | a, fuel + 1 =>
    (if 0 < a then [Event.sleep a] else []) ++ [mk a] ++
      attemptTrace mk (a + 1) fuel

/-- Per-unit results in submission order: each unit's `processFile` verdict,
with the clock threaded exactly as the sequentialised run threads it. -/
def unitResults (env : PipelineEnv) (attOf : FileItem → Nat → FetchOutcome) :
    List FileItem → Nat → List (FileItem × Except UnitError Unit)
  | [], _ => []
  | item :: rest, clock =>
    let one := processFile env (attOf item) item clock
    (item, one.1) :: unitResults env attOf rest one.2.1

/-- Paths of the units that succeeded, in submission order. -/
def succeededPaths (results : List (FileItem × Except UnitError Unit)) :
    List String :=
  results.filterMap fun pr =>
    match pr.2 with | .ok _ => some pr.1.path | .error _ => none

/-- Wrapped errors of the units that failed, in submission order. -/
def failedUnits (results : List (FileItem × Except UnitError Unit)) :
    List (String × UnitError) :=
  results.filterMap fun pr =>
    match pr.2 with | .error e => some (pr.1.path, e) | .ok _ => none

/-- `true` iff the unit's verdict was success. -/
def unitOk : Except UnitError Unit → Bool
  | .ok _ => true
  | .error _ => false

/-! ## The admission gate (lines 222–256)

`pool = make(chan struct{}, CONCURRENCY)` is a counting semaphore: the
submitting loop sends a token (`pool <- struct{}{}`) before spawning a
goroutine and the goroutine returns its token (`<-pool`) when it finishes, so
channel occupancy counts the units currently in their fetch/parse/store
phase. A send on a full buffered channel blocks the sender. The loop is
modelled as a labelled transition system over the numbers of pending,
in-flight and completed units. -/

structure PoolState where
  pending : Nat
  inFlight : Nat
  completed : Nat
  deriving DecidableEq, Repr

/-- One scheduler step of the worker pool with bound `conc`: `submit` is the
send into the buffered channel followed by the `go` statement — enabled only
while the channel has a free slot (`inFlight < conc`); `complete` is a
goroutine finishing and returning its token. There is no transition that
discards a pending unit: a saturated pool blocks the submitter. -/
inductive PoolStep (conc : Nat) : PoolState → PoolState → Prop
  | submit (s : PoolState) : 0 < s.pending → s.inFlight < conc →
      PoolStep conc s ⟨s.pending - 1, s.inFlight + 1, s.completed⟩
  | complete (s : PoolState) : 0 < s.inFlight →
      PoolStep conc s ⟨s.pending, s.inFlight - 1, s.completed + 1⟩

/-- States reachable from dispatching `n` candidate files into an idle pool. -/
def PoolReachable (conc n : Nat) (s : PoolState) : Prop :=
  Relation.ReflTransGen (PoolStep conc) ⟨n, 0, 0⟩ s

/-! ## Concrete demonstration values used by witnesses -/

/-- A sample vulnerability record shaped like the fixture of
`service_test.go`. -/
def demoRecord (idStr : String) : Vulnerabality :=
  { id := idStr, severity := "HIGH", cvss := 8, status := "fixed",
    packageName := "demo-package", currentVersion := "1.0.0",
    fixedVersion := "1.1.0", description := "demo",
    publishedDate := "2024-01-01T00:00:00Z", link := "https://example.com/cve",
    riskFactors := ["Demo Risk"], sourceFile := "", scanTime := 0 }

/-- A sample search item for path `<nm>.json`. -/
def demoItem (nm : String) : FileItem :=
  ⟨nm ++ ".json", nm ++ ".json", "/raw/" ++ nm ++ ".json"⟩

/-- A sample decoder: the empty payload is malformed (as it is for
`encoding/json`), any other payload decodes to one block holding one record
named after the payload. -/
def demoDecode (s : String) : Option (List ScanPayloads) :=
  if s = "" then none else some [⟨⟨[demoRecord s]⟩⟩]

/-! ## Lemmas about the retry loops -/

/-- A run of the search loop whose every remaining attempt fails produces the
canonical failing trace and no items. -/
theorem searchLoop_allFail (att : Nat → SearchOutcome) :
    ∀ fuel a, (∀ n, a ≤ n → n < a + fuel → (att n).isOk = false) →
      searchLoop att fuel a =
        (attemptTrace Event.searchAttempt a fuel, none) := by
  intro fuel
  induction fuel with
  | zero => intro a _; rfl
  | succ fuel ih =>
    intro a hfail
    have hrec := ih (a + 1) (fun n h1 h2 => hfail n (by omega) (by omega))
    have hf := hfail a (Nat.le_refl a) (by omega)
    rw [searchLoop]
    cases hatt : att a with
    | ok items => simp [hatt, SearchOutcome.isOk] at hf
    | reqError => simp [hrec, attemptTrace]
    | transportError => simp [hrec, attemptTrace]
    | statusError code body => simp [hrec, attemptTrace]
    | readError => simp [hrec, attemptTrace]
    | decodeError => simp [hrec, attemptTrace]

/-- A run of the download loop whose every remaining attempt fails to `break`
produces the canonical failing trace, whatever data threads through. -/
theorem fetchLoop_allFail_trace (att : Nat → FetchOutcome) :
    ∀ fuel a, (∀ n, a ≤ n → n < a + fuel → (att n).isOk = false) →
      ∀ d, (fetchLoop att fuel a d).1 =
        attemptTrace Event.fetchAttempt a fuel := by
  intro fuel
  induction fuel with
  | zero => intro a _ d; rfl
  | succ fuel ih =>
    intro a hfail d
    have hrec := ih (a + 1) (fun n h1 h2 => hfail n (by omega) (by omega))
    have hf := hfail a (Nat.le_refl a) (by omega)
    rw [fetchLoop]
    cases hatt : att a with
    | ok body => simp [hatt, FetchOutcome.isOk] at hf
    | readError partialBody => simp [hrec, attemptTrace]
    | reqError => simp [hrec, attemptTrace]
    | transportError => simp [hrec, attemptTrace]
    | statusError code body => simp [hrec, attemptTrace]

/-- If no remaining attempt ever writes to `data` (no attempt reaches the
`io.ReadAll` after a 200 status), the loop returns `data` unchanged. -/
theorem fetchLoop_noWrite (att : Nat → FetchOutcome) :
    ∀ fuel a, (∀ n, a ≤ n → n < a + fuel → (att n).writesData = false) →
      ∀ d, (fetchLoop att fuel a d).2 = d := by
  intro fuel
  induction fuel with
  | zero => intro a _ d; rfl
  | succ fuel ih =>
    intro a hfail d
    have hrec := ih (a + 1) (fun n h1 h2 => hfail n (by omega) (by omega))
    have hf := hfail a (Nat.le_refl a) (by omega)
    rw [fetchLoop]
    cases hatt : att a with
    | ok body => simp [hatt, FetchOutcome.writesData] at hf
    | readError partialBody => simp [hatt, FetchOutcome.writesData] at hf
    | reqError => simp [hrec]
    | transportError => simp [hrec]
    | statusError code body => simp [hrec]

/-- Counting events of a failing-run trace: a predicate true on the attempt
marker and false on sleeps counts exactly one event per attempt. -/
theorem filter_attemptTrace (p : Event → Bool) (mk : Nat → Event)
    (hmk : ∀ k, p (mk k) = true) (hsl : ∀ k, p (Event.sleep k) = false) :
    ∀ fuel a, ((attemptTrace mk a fuel).filter p).length = fuel := by
  intro fuel
  induction fuel with
  | zero => intro a; simp [attemptTrace]
  | succ fuel ih =>
    intro a
    by_cases h : 0 < a <;>
      simp [attemptTrace, h, hmk, hsl, ih, List.filter_append]

/-- The sleeps of a failing-run trace started at a positive attempt number
are exactly `attempt, attempt+1, …`. -/
theorem sleepsOf_attemptTrace (mk : Nat → Event)
    (hmk : ∀ k, sleepsOf [mk k] = []) :
    ∀ fuel a, 1 ≤ a →
      sleepsOf (attemptTrace mk a fuel) = List.range' a fuel := by
  simp only [sleepsOf] at hmk
  intro fuel
  induction fuel with
  | zero => intro a _; simp [attemptTrace, sleepsOf]
  | succ fuel ih =>
    intro a ha
    simp only [attemptTrace, sleepsOf, List.filterMap_append]
    simp only [sleepsOf] at ih
    rw [ih (a + 1) (by omega), hmk a, if_pos (show 0 < a from ha)]
    simp [List.range'_succ]

/-- The sleeps of a failing run that starts at attempt 0: no sleep before
attempt 0, then `1, 2, …` before the retries. -/
theorem sleepsOf_attemptTrace_zero (mk : Nat → Event)
    (hmk : ∀ k, sleepsOf [mk k] = []) (fuel : Nat) :
    sleepsOf (attemptTrace mk 0 (fuel + 1)) = List.range' 1 fuel := by
  have h0 := hmk 0
  simp only [sleepsOf] at h0
  simp only [attemptTrace, sleepsOf, List.filterMap_append]
  rw [h0]
  have := sleepsOf_attemptTrace mk hmk fuel 1 (Nat.le_refl 1)
  simp only [sleepsOf] at this
  simp [this]

theorem sleepsOf_searchAttempt (k : Nat) :
    sleepsOf [Event.searchAttempt k] = [] := rfl

theorem sleepsOf_fetchAttempt (k : Nat) :
    sleepsOf [Event.fetchAttempt k] = [] := rfl

/-- `true` for the events the search loop can emit. -/
def Event.inSearchPhase : Event → Bool
  | .sleep _ => true
  | .searchAttempt _ => true
  | _ => false

/-- `true` for the events the download loop can emit. -/
def Event.inFetchPhase : Event → Bool
  | .sleep _ => true
  | .fetchAttempt _ => true
  | _ => false

/-- Membership in one `sleep?; attempt` chunk of a retry-loop trace, for any
predicate true on sleeps, on the attempt marker and on the tail. -/
theorem mem_attempt_last (p : Event → Bool) {e mk : Event} {a : Nat}
    (hsl : ∀ k, p (Event.sleep k) = true) (hmk : p mk = true)
    (he : e ∈ (if 0 < a then [Event.sleep a] else []) ++ [mk]) :
    p e = true := by
  rcases List.mem_append.1 he with h | h
  · split at h <;> simp_all
  · simp at h; subst h; exact hmk

theorem mem_attempt_chunk (p : Event → Bool) {e mk : Event} {a : Nat}
    {rest : List Event} (hsl : ∀ k, p (Event.sleep k) = true)
    (hmk : p mk = true) (hrest : ∀ x ∈ rest, p x = true)
    (he : e ∈ (if 0 < a then [Event.sleep a] else []) ++ [mk] ++ rest) :
    p e = true := by
  rcases List.mem_append.1 he with h | h
  · exact mem_attempt_last p hsl hmk h
  · exact hrest e h

/-- Every event of a search-loop trace is a sleep or a search attempt: the
search stage performs no fetch, no payload decode and no storage write. -/
theorem searchLoop_phase (att : Nat → SearchOutcome) :
    ∀ fuel a, ∀ e ∈ (searchLoop att fuel a).1, e.inSearchPhase = true := by
  intro fuel
  induction fuel with
  | zero => intro a e he; simp [searchLoop] at he
  | succ fuel ih =>
    intro a e he
    rw [searchLoop] at he
    cases hatt : att a <;>
      simp only [hatt] at he <;>
      first
        | exact mem_attempt_chunk Event.inSearchPhase (fun _ => rfl) (by rfl)
            (fun x hx => ih (a + 1) x hx) he
        | exact mem_attempt_last Event.inSearchPhase (fun _ => rfl) (by rfl) he

/-- Every event of a download-loop trace is a sleep or a fetch attempt. -/
theorem fetchLoop_phase (att : Nat → FetchOutcome) :
    ∀ fuel a d, ∀ e ∈ (fetchLoop att fuel a d).1, e.inFetchPhase = true := by
  intro fuel
  induction fuel with
  | zero => intro a d e he; simp [fetchLoop] at he
  | succ fuel ih =>
    intro a d e he
    rw [fetchLoop] at he
    cases hatt : att a <;>
      simp only [hatt] at he <;>
      first
        | exact mem_attempt_chunk Event.inFetchPhase (fun _ => rfl) (by rfl)
            (fun x hx => ih (a + 1) _ x hx) he
        | exact mem_attempt_last Event.inFetchPhase (fun _ => rfl) (by rfl) he

/-- Search-phase traces record no fetches, no decodes and no saved batches. -/
theorem searchPhase_counts (evs : List Event)
    (h : ∀ e ∈ evs, e.inSearchPhase = true) :
    fetchAttemptCount evs = 0 ∧ decodeCount evs = 0 ∧ savedBatches evs = [] := by
  refine ⟨?_, ?_, ?_⟩
  · simp only [fetchAttemptCount, List.length_eq_zero]
    rw [List.filter_eq_nil_iff]
    intro e he
    have := h e he
    cases e <;> simp_all [Event.inSearchPhase]
  · simp only [decodeCount, List.length_eq_zero]
    rw [List.filter_eq_nil_iff]
    intro e he
    have := h e he
    cases e <;> simp_all [Event.inSearchPhase]
  · simp only [savedBatches]
    rw [List.filterMap_eq_nil_iff]
    intro e he
    have := h e he
    cases e <;> simp_all [Event.inSearchPhase]

/-- Fetch-phase traces record no decodes and no saved batches. -/
theorem fetchPhase_counts (evs : List Event)
    (h : ∀ e ∈ evs, e.inFetchPhase = true) :
    decodeCount evs = 0 ∧ savedBatches evs = [] := by
  refine ⟨?_, ?_⟩
  · simp only [decodeCount, List.length_eq_zero]
    rw [List.filter_eq_nil_iff]
    intro e he
    have := h e he
    cases e <;> simp_all [Event.inFetchPhase]
  · simp only [savedBatches]
    rw [List.filterMap_eq_nil_iff]
    intro e he
    have := h e he
    cases e <;> simp_all [Event.inFetchPhase]

/-! ## Lemmas about the coordinator -/

theorem unitResults_length (env : PipelineEnv)
    (attOf : FileItem → Nat → FetchOutcome) :
    ∀ items clock, (unitResults env attOf items clock).length = items.length := by
  intro items
  induction items with
  | nil => intro clock; rfl
  | cons item rest ih => intro clock; simp [unitResults, ih]

/-- The success list of the sequentialised run is exactly the paths of the
units whose verdict was success, in submission order. -/
theorem processLoop_fst (env : PipelineEnv)
    (attOf : FileItem → Nat → FetchOutcome) :
    ∀ items clock, (processLoop env attOf items clock).1 =
      succeededPaths (unitResults env attOf items clock) := by
  intro items
  induction items with
  | nil => intro clock; rfl
  | cons item rest ih =>
    intro clock
    simp only [processLoop, unitResults, succeededPaths]
    cases h : (processFile env (attOf item) item clock).1 <;>
      simp only [h, List.filterMap_cons] <;>
      simp [ih, succeededPaths]

/-- The error list of the sequentialised run is exactly the wrapped causes of
the units whose verdict was failure, in submission order. -/
theorem processLoop_errs (env : PipelineEnv)
    (attOf : FileItem → Nat → FetchOutcome) :
    ∀ items clock, (processLoop env attOf items clock).2.1 =
      failedUnits (unitResults env attOf items clock) := by
  intro items
  induction items with
  | nil => intro clock; rfl
  | cons item rest ih =>
    intro clock
    simp only [processLoop, unitResults, failedUnits]
    cases h : (processFile env (attOf item) item clock).1 <;>
      simp only [h, List.filterMap_cons] <;>
      simp [ih, failedUnits]

theorem succeeded_failed_length (rs : List (FileItem × Except UnitError Unit)) :
    (succeededPaths rs).length + (failedUnits rs).length = rs.length := by
  induction rs with
  | nil => rfl
  | cons pr rest ih =>
    simp only [succeededPaths, failedUnits, List.filterMap_cons] at ih ⊢
    cases h : pr.2 <;> simp [h, ih] <;> omega

theorem succeededPaths_eq_nil (rs : List (FileItem × Except UnitError Unit))
    (h : ∀ pr ∈ rs, unitOk pr.2 = false) : succeededPaths rs = [] := by
  induction rs with
  | nil => rfl
  | cons pr rest ih =>
    simp only [succeededPaths, List.filterMap_cons]
    have h1 := h pr (List.mem_cons_self pr rest)
    cases h2 : pr.2 with
    | ok u => rw [h2] at h1; simp [unitOk] at h1
    | error e =>
      simp only []
      exact ih (fun q hq => h q (List.mem_cons_of_mem pr hq))

theorem succeededPaths_ne_nil (rs : List (FileItem × Except UnitError Unit))
    (pr : FileItem × Except UnitError Unit) (hpr : pr ∈ rs)
    (hok : unitOk pr.2 = true) : succeededPaths rs ≠ [] := by
  induction rs with
  | nil => simp at hpr
  | cons q rest ih =>
    simp only [succeededPaths, List.filterMap_cons]
    rcases List.mem_cons.1 hpr with h | h
    · subst h
      cases h2 : pr.2 with
      | ok u => simp
      | error e => rw [h2] at hok; simp [unitOk] at hok
    · cases h2 : q.2 with
      | ok u => simp
      | error e =>
        simp only []
        exact ih h

/-- C1: for every non-empty item list, after all units complete: if every
unit failed, the invocation returns an aggregate error (no summary) carrying
the path and cause of an actual failed unit (`errorsOccurred[0]`); otherwise
it returns a `ScanResult` whose `SourceFiles` is exactly the list of paths of
the units that succeeded and whose `ProcessedFiles` is that list's length. -/
theorem processFilesInParallel_spec (env : PipelineEnv)
    (attOf : FileItem → Nat → FetchOutcome) (items : List FileItem)
    (repoName : String) (clock : Nat) (hne : items ≠ []) :
    ((∀ pr ∈ unitResults env attOf items clock, unitOk pr.2 = false) →
      ∃ first rest,
        failedUnits (unitResults env attOf items clock) = first :: rest ∧
        (processFilesInParallel env attOf items repoName clock).1 =
          .error (.allFilesFailed first.1 first.2)) ∧
    ((∃ pr ∈ unitResults env attOf items clock, unitOk pr.2 = true) →
      ∃ s, (processFilesInParallel env attOf items repoName clock).1 = .ok s ∧
        s.sourceFiles = succeededPaths (unitResults env attOf items clock) ∧
        s.processedFiles =
          (succeededPaths (unitResults env attOf items clock)).length) := by
  have hlen := unitResults_length env attOf items clock
  have hpf := processLoop_fst env attOf items clock
  have herr := processLoop_errs env attOf items clock
  have hsum := succeeded_failed_length (unitResults env attOf items clock)
  constructor
  · intro hall
    have hnil := succeededPaths_eq_nil _ hall
    have hflen : (failedUnits (unitResults env attOf items clock)).length =
        items.length := by
      rw [hnil] at hsum; simpa [hlen] using hsum
    cases hfu : failedUnits (unitResults env attOf items clock) with
    | nil =>
      exfalso
      rw [hfu] at hflen
      exact hne (List.length_eq_zero.1 hflen.symm)
    | cons first rest =>
      refine ⟨first, rest, rfl, ?_⟩
      simp only [processFilesInParallel]
      rw [herr, if_pos hflen, hfu]
  · intro hex
    obtain ⟨pr, hpr, hok⟩ := hex
    have hnn := succeededPaths_ne_nil _ pr hpr hok
    have hpos : 0 < (succeededPaths (unitResults env attOf items clock)).length :=
      List.length_pos.2 hnn
    have hlt : (failedUnits (unitResults env attOf items clock)).length ≠
        items.length := by omega
    refine ⟨{ processedFiles := (processLoop env attOf items clock).1.length,
              scanTime := (processLoop env attOf items clock).2.2.1,
              sourceRepo := repoName,
              sourceFiles := (processLoop env attOf items clock).1 }, ?_, ?_, ?_⟩
    · simp only [processFilesInParallel]
      rw [herr, if_neg hlt]
    · simpa using hpf
    · simp [hpf]

/-- A demonstration environment: budget 2, the demo decoder, a storage sink
that always succeeds. -/
def demoEnv : PipelineEnv := ⟨2, demoDecode, fun _ => none⟩

/-- A demonstration environment whose decoder rejects every payload. -/
def demoRejectEnv : PipelineEnv := ⟨2, fun _ => none, fun _ => none⟩

/-- Demonstration transport: every fetch succeeds immediately, the body being
the file's name. -/
def demoAtt : FileItem → Nat → FetchOutcome := fun item _ => .ok item.name

/-! ## The claims -/

/-- C5: for every non-empty repository identifier, the constructed search
query appends one `filename:<hint>.json` term per provided hint and no
extension term, and appends the single `+extension:json` restriction exactly
when no hints are provided — the two filter strategies are exclusive
alternatives selected by the emptiness of the hint list. -/
theorem query_filter_strategies (repoName : String) (filenames : List String)
    (h : repoName ≠ "") :
    buildGitHubSearchURL repoName filenames =
      some (if filenames.isEmpty
        then GITHUB_API ++ "?q=repo:" ++ repoName ++ "+extension:json"
        else GITHUB_API ++ "?q=repo:" ++ repoName ++ filenameTerms filenames) := by
  simp only [buildGitHubSearchURL, if_neg h]
  rw [foldl_filenameTerms]
  cases filenames with
  | nil => simp [filenameTerms, String.join]
  | cons f fs => simp [List.isEmpty]

/-- Witness for C5: both branches at the inputs of
`TestBuildGitHubSearchURL` from `service_test.go`. -/
theorem query_filter_strategies_witness :
    buildGitHubSearchURL "owner/repo" ["file1", "file2"] =
      some ("https://api.github.com/search/code?q=repo:owner/repo" ++
        "+filename:file1.json+filename:file2.json") ∧
    buildGitHubSearchURL "owner/repo" [] =
      some ("https://api.github.com/search/code?q=repo:owner/repo" ++
        "+extension:json") := by
  constructor
  · rw [query_filter_strategies "owner/repo" ["file1", "file2"] (by decide)]
    rfl
  · rw [query_filter_strategies "owner/repo" [] (by decide)]
    rfl

/-- C7 (code bug): `Filter` is specified to surface a pipeline error when the
storage read fails, but lines 379–381 return `[]repo.Vulnerabality{}, nil` on
`GetVulnerabilities` failure — the caller receives a successful empty result
for every storage error. -/
theorem filter_swallows_storage_error (e : String) :
    Filter true none (Except.error e) = Except.ok [] := rfl

/-- C10: for each integer configuration variable an unset (empty) environment
value yields the documented default (2 / 3 / 5432), while a set but
non-numeric value — one `Sscanf %d` cannot scan — yields `0` instead of the
default, silently configuring 0 retries or a 0-sized pool. -/
theorem env_int_parsing (env : String → String) (value : String) (d : Int) :
    (env "MAX_RETRIES" = "" → MAX_RETRIES env = 2) ∧
    (env "CONCURRENCY" = "" → CONCURRENCY env = 3) ∧
    (env "DB_PORT" = "" → DB_PORT env = 5432) ∧
    (value ≠ "" → sscanfD value = none → getEnvAsIntOrDefault value d = 0) ∧
    (env "MAX_RETRIES" ≠ "" → sscanfD (env "MAX_RETRIES") = none →
      MAX_RETRIES env = 0) ∧
    (env "CONCURRENCY" ≠ "" → sscanfD (env "CONCURRENCY") = none →
      CONCURRENCY env = 0) ∧
    (env "DB_PORT" ≠ "" → sscanfD (env "DB_PORT") = none → DB_PORT env = 0) := by
  refine ⟨?_, ?_, ?_, ?_, ?_, ?_, ?_⟩ <;>
    intro h1 <;>
    first
      | (intro h2
         simp [MAX_RETRIES, CONCURRENCY, DB_PORT, getEnvAsIntOrDefault, h1, h2])
      | simp [MAX_RETRIES, CONCURRENCY, DB_PORT, getEnvAsIntOrDefault, h1]

/-- Witness for C10: an environment where `MAX_RETRIES=abc`: the malformed
value parses to 0 while the unset variables keep their defaults. -/
theorem env_int_parsing_witness :
    MAX_RETRIES (fun k => if k = "MAX_RETRIES" then "abc" else "") = 0 ∧
    CONCURRENCY (fun k => if k = "MAX_RETRIES" then "abc" else "") = 3 ∧
    DB_PORT (fun k => if k = "MAX_RETRIES" then "abc" else "") = 5432 ∧
    getEnvAsIntOrDefault "abc" 2 = 0 := by
  have h := env_int_parsing (fun k => if k = "MAX_RETRIES" then "abc" else "")
    "abc" 2
  exact ⟨h.2.2.2.2.1 (by decide) (by decide), h.2.1 (by decide),
    h.2.2.1 (by decide), h.2.2.2.1 (by decide) (by decide)⟩

/-- An attempt that never reaches the read of a 200-status body does not
`break` the loop either. -/
theorem isOk_false_of_writesData_false (o : FetchOutcome)
    (h : o.writesData = false) : o.isOk = false := by
  cases o <;> simp_all [FetchOutcome.isOk, FetchOutcome.writesData]

/-- C2: with every attempt permanently failing, both the search and a file
fetch are attempted exactly `MAX_RETRIES + 1` times before an error is
surfaced, the waits before the retries being `1, 2, …, MAX_RETRIES` time
units (no wait before attempt 0); the two loops run on independent counters:
both counts hold at once for arbitrary unrelated attempt functions. The
error surfaced by the fetch is — per the dead `err` check, see C4 — the
parse error on the empty buffer. -/
theorem retry_budget (maxRetries : Nat) (attS : Nat → SearchOutcome)
    (attF : Nat → FetchOutcome) (decode : String → Option (List ScanPayloads))
    (save : List Vulnerabality → Option String) (item : FileItem) (clock : Nat)
    (hS : ∀ n, n ≤ maxRetries → (attS n).isOk = false)
    (hW : ∀ n, n ≤ maxRetries → (attF n).writesData = false)
    (hdec : decode "" = none) :
    (searchGitHubFiles maxRetries attS).2 =
      Except.error (.searchFailed (maxRetries + 1) none) ∧
    searchAttemptCount (searchGitHubFiles maxRetries attS).1 = maxRetries + 1 ∧
    sleepsOf (searchGitHubFiles maxRetries attS).1 = List.range' 1 maxRetries ∧
    fetchAttemptCount
      (processFile ⟨maxRetries, decode, save⟩ attF item clock).2.2 =
      maxRetries + 1 ∧
    sleepsOf (processFile ⟨maxRetries, decode, save⟩ attF item clock).2.2 =
      List.range' 1 maxRetries ∧
    (processFile ⟨maxRetries, decode, save⟩ attF item clock).1 =
      Except.error (.parseError "") := by
  have hsl := searchLoop_allFail attS (maxRetries + 1) 0
    (fun n _ h2 => hS n (by omega))
  have hF : ∀ n, n ≤ maxRetries → (attF n).isOk = false :=
    fun n hn => isOk_false_of_writesData_false _ (hW n hn)
  have hfl := fetchLoop_allFail_trace attF (maxRetries + 1) 0
    (fun n _ h2 => hF n (by omega)) ""
  have hdata := fetchLoop_noWrite attF (maxRetries + 1) 0
    (fun n _ h2 => hW n (by omega)) ""
  have hpf : processFile ⟨maxRetries, decode, save⟩ attF item clock =
      (Except.error (.parseError ""), clock,
        (fetchLoop attF (maxRetries + 1) 0 "").1 ++ [.decodeFile ""]) := by
    simp only [processFile, hdata, hdec]
  refine ⟨?_, ?_, ?_, ?_, ?_, ?_⟩
  · simp [searchGitHubFiles, hsl]
  · simp only [searchGitHubFiles, hsl, searchAttemptCount]
    exact filter_attemptTrace _ Event.searchAttempt (fun _ => rfl)
      (fun _ => rfl) (maxRetries + 1) 0
  · simp only [searchGitHubFiles, hsl]
    exact sleepsOf_attemptTrace_zero Event.searchAttempt (fun _ => rfl)
      maxRetries
  · rw [hpf]
    simp only [fetchAttemptCount, List.filter_append, List.length_append, hfl]
    rw [filter_attemptTrace _ Event.fetchAttempt (fun _ => rfl) (fun _ => rfl)
      (maxRetries + 1) 0]
    rfl
  · rw [hpf]
    simp only [sleepsOf, List.filterMap_append, hfl]
    have := sleepsOf_attemptTrace_zero Event.fetchAttempt (fun _ => rfl)
      maxRetries
    simp only [sleepsOf] at this
    rw [this]
    simp
  · rw [hpf]

/-- Witness for C2: `MAX_RETRIES = 2`, a permanently failing search transport
and a permanently failing (status 500) fetch transport: 3 attempts each, with
waits of 1 and 2 time units before the retries. -/
theorem retry_budget_witness :
    (searchGitHubFiles 2 (fun _ => .transportError)).2 =
      Except.error (.searchFailed 3 none) ∧
    searchAttemptCount (searchGitHubFiles 2 (fun _ => .transportError)).1 = 3 ∧
    sleepsOf (searchGitHubFiles 2 (fun _ => .transportError)).1 = [1, 2] ∧
    fetchAttemptCount
      (processFile ⟨2, demoEnv.decode, demoEnv.save⟩
        (fun _ => .statusError 500 "err") (demoItem "a") 0).2.2 = 3 ∧
    sleepsOf
      (processFile ⟨2, demoEnv.decode, demoEnv.save⟩
        (fun _ => .statusError 500 "err") (demoItem "a") 0).2.2 = [1, 2] ∧
    (processFile ⟨2, demoEnv.decode, demoEnv.save⟩
      (fun _ => .statusError 500 "err") (demoItem "a") 0).1 =
      Except.error (.parseError "") := by
  have h := retry_budget 2 (fun _ => .transportError)
    (fun _ => .statusError 500 "err") demoEnv.decode demoEnv.save
    (demoItem "a") 0 (fun _ _ => rfl) (fun _ _ => rfl) (by decide)
  exact ⟨h.1, h.2.1, h.2.2.1, h.2.2.2.1, h.2.2.2.2.1, h.2.2.2.2.2⟩

/-- C4 (code bug): when every fetch attempt fails, `processFile` is specified
to return an error describing the final download failure without reaching the
parse stage; but the loop's `req, err := …` re-declares `err`, so the outer
`err` tested at line 328 is still `nil` after exhaustion, the guard is dead
code, and the function decodes the empty buffer and returns the parse error
instead. No run of `processFile` can ever produce `downloadFailed`. -/
theorem fetch_exhaustion_divergence (env : PipelineEnv)
    (attF : Nat → FetchOutcome) (item : FileItem) (clock : Nat)
    (hW : ∀ n, n ≤ env.maxRetries → (attF n).writesData = false)
    (hdec : env.decode "" = none) :
    (processFile env attF item clock).1 = Except.error (.parseError "") ∧
    0 < decodeCount (processFile env attF item clock).2.2 ∧
    (∀ (att2 : Nat → FetchOutcome) (c2 a : Nat) (cause : Option String),
      (processFile env att2 item c2).1 ≠
        Except.error (.downloadFailed a cause)) := by
  have hdata := fetchLoop_noWrite attF (env.maxRetries + 1) 0
    (fun n _ h2 => hW n (by omega)) ""
  have hpf : processFile env attF item clock =
      (Except.error (.parseError ""), clock,
        (fetchLoop attF (env.maxRetries + 1) 0 "").1 ++ [.decodeFile ""]) := by
    simp only [processFile, hdata, hdec]
  refine ⟨by rw [hpf], ?_, ?_⟩
  · rw [hpf]
    simp [decodeCount, List.filter_append]
  · intro att2 c2 a cause
    simp only [processFile]
    cases env.decode (fetchLoop att2 (env.maxRetries + 1) 0 "").2 with
    | none => simp
    | some fileContent =>
      simp only []
      split
      · cases env.save (attachMeta item.path c2 fileContent) with
        | none => simp
        | some msg => simp
      · simp

/-- Witness for C4: budget 2, every attempt a transport error, the
`encoding/json` behaviour of rejecting an empty payload. -/
theorem fetch_exhaustion_divergence_witness :
    (processFile demoEnv (fun _ => .transportError) (demoItem "a") 0).1 =
      Except.error (.parseError "") ∧
    0 < decodeCount
      (processFile demoEnv (fun _ => .transportError) (demoItem "a") 0).2.2 := by
  have h := fetch_exhaustion_divergence demoEnv (fun _ => .transportError)
    (demoItem "a") 0 (fun _ _ => rfl) (by decide)
  exact ⟨h.1, h.2.1⟩

theorem savedBatches_append (a b : List Event) :
    savedBatches (a ++ b) = savedBatches a ++ savedBatches b :=
  List.filterMap_append a b _

theorem decodeCount_append (a b : List Event) :
    decodeCount (a ++ b) = decodeCount a + decodeCount b := by
  simp [decodeCount, List.filter_append]

/-- Witness for C1: both branches — two units that both succeed yield a
summary listing both paths; one unit that fails to parse yields the aggregate
error built from its wrapped cause. -/
theorem processFilesInParallel_spec_witness :
    (∃ s, (processFilesInParallel demoEnv demoAtt
        [demoItem "a", demoItem "b"] "o/r" 0).1 = .ok s ∧
      s.sourceFiles =
        succeededPaths (unitResults demoEnv demoAtt
          [demoItem "a", demoItem "b"] 0) ∧
      s.processedFiles =
        (succeededPaths (unitResults demoEnv demoAtt
          [demoItem "a", demoItem "b"] 0)).length) ∧
    (∃ first rest,
      failedUnits (unitResults demoRejectEnv demoAtt [demoItem "a"] 0) =
        first :: rest ∧
      (processFilesInParallel demoRejectEnv demoAtt [demoItem "a"] "o/r" 0).1 =
        .error (.allFilesFailed first.1 first.2)) := by
  constructor
  · refine (processFilesInParallel_spec demoEnv demoAtt
      [demoItem "a", demoItem "b"] "o/r" 0 (by decide)).2
      ⟨(demoItem "a", Except.ok ()), ?_, rfl⟩
    rw [show unitResults demoEnv demoAtt [demoItem "a", demoItem "b"] 0 =
      [(demoItem "a", Except.ok ()), (demoItem "b", Except.ok ())] from rfl]
    exact List.mem_cons_self _ _
  · exact (processFilesInParallel_spec demoRejectEnv demoAtt
      [demoItem "a"] "o/r" 0 (by decide)).1 (by decide)

/-- C3 is false as stated: a single invocation over two files, both decoding
to one record each, hands storage two records whose scan timestamps differ —
the timestamp is taken per file (line 342, inside `processFile`), not once
per scan invocation. -/
theorem timestamp_not_invocation_shared :
    savedBatches ((processFilesInParallel demoEnv demoAtt
        [demoItem "a", demoItem "b"] "o/r" 0).2.2) =
      [[{ demoRecord "a.json" with sourceFile := "a.json", scanTime := 0 }],
       [{ demoRecord "b.json" with sourceFile := "b.json", scanTime := 1 }]] ∧
    ({ demoRecord "a.json" with
        sourceFile := "a.json", scanTime := 0 } : Vulnerabality).scanTime ≠
      ({ demoRecord "b.json" with
        sourceFile := "b.json", scanTime := 1 } : Vulnerabality).scanTime := by
  exact ⟨by decide, by decide⟩

/-- Every record attached by lines 342–353 carries the given path and tick. -/
theorem attachMeta_mem (path : String) (t : Nat) :
    ∀ (content : List ScanPayloads), ∀ v ∈ attachMeta path t content,
      v.sourceFile = path ∧ v.scanTime = t := by
  intro content
  induction content with
  | nil => intro v hv; simp [attachMeta] at hv
  | cons block rest ih =>
    intro v hv
    simp only [attachMeta] at hv
    rcases List.mem_append.1 hv with h | h
    · split at h
      · simp at h
      · obtain ⟨payload, hp, rfl⟩ := List.mem_map.1 h
        exact ⟨rfl, rfl⟩
    · exact ih v h

/-- C3 amended: every record a unit hands to storage carries the unit's
source file path and the single `time.Now()` tick taken in that unit's
`processFile` call — one shared timestamp per file, not per invocation. -/
theorem per_file_metadata (env : PipelineEnv) (att : Nat → FetchOutcome)
    (item : FileItem) (clock : Nat) :
    ∀ recs ∈ savedBatches (processFile env att item clock).2.2,
      ∀ v ∈ recs, v.sourceFile = item.path ∧ v.scanTime = clock := by
  intro recs hrecs v hv
  have hfb :=
    (fetchPhase_counts _ (fetchLoop_phase att (env.maxRetries + 1) 0 "")).2
  cases hd : env.decode (fetchLoop att (env.maxRetries + 1) 0 "").2 with
  | none =>
    have hpf : (processFile env att item clock).2.2 =
        (fetchLoop att (env.maxRetries + 1) 0 "").1 ++
          [.decodeFile (fetchLoop att (env.maxRetries + 1) 0 "").2] := by
      simp only [processFile, hd]
    rw [hpf, savedBatches_append, hfb] at hrecs
    simp [savedBatches] at hrecs
  | some content =>
    by_cases hlen : 0 < (attachMeta item.path clock content).length
    · cases hs : env.save (attachMeta item.path clock content) with
      | none =>
        have hpf : (processFile env att item clock).2.2 =
            (fetchLoop att (env.maxRetries + 1) 0 "").1 ++
              [.decodeFile (fetchLoop att (env.maxRetries + 1) 0 "").2,
               .saveRecords (attachMeta item.path clock content)] := by
          simp only [processFile, hd, if_pos hlen, hs]
        rw [hpf, savedBatches_append, hfb] at hrecs
        simp [savedBatches] at hrecs
        subst hrecs
        exact attachMeta_mem item.path clock content v hv
      | some msg =>
        have hpf : (processFile env att item clock).2.2 =
            (fetchLoop att (env.maxRetries + 1) 0 "").1 ++
              [.decodeFile (fetchLoop att (env.maxRetries + 1) 0 "").2,
               .saveRecords (attachMeta item.path clock content)] := by
          simp only [processFile, hd, if_pos hlen, hs]
        rw [hpf, savedBatches_append, hfb] at hrecs
        simp [savedBatches] at hrecs
        subst hrecs
        exact attachMeta_mem item.path clock content v hv
    · have hpf : (processFile env att item clock).2.2 =
          (fetchLoop att (env.maxRetries + 1) 0 "").1 ++
            [.decodeFile (fetchLoop att (env.maxRetries + 1) 0 "").2] := by
        simp only [processFile, hd, if_neg hlen]
      rw [hpf, savedBatches_append, hfb] at hrecs
      simp [savedBatches] at hrecs

/-- Witness for C3's amended claim: the record saved by processing file
`a.json` at tick 5 carries that path and tick. -/
theorem per_file_metadata_witness :
    ({ demoRecord "a.json" with
        sourceFile := "a.json", scanTime := 5 } : Vulnerabality).sourceFile =
      (demoItem "a").path ∧
    ({ demoRecord "a.json" with
        sourceFile := "a.json", scanTime := 5 } : Vulnerabality).scanTime = 5 :=
  per_file_metadata demoEnv (demoAtt (demoItem "a")) (demoItem "a") 5
    [{ demoRecord "a.json" with sourceFile := "a.json", scanTime := 5 }]
    (by decide)
    { demoRecord "a.json" with sourceFile := "a.json", scanTime := 5 }
    (by decide)

theorem searchGitHubFiles_fst (maxRetries : Nat) (att : Nat → SearchOutcome) :
    (searchGitHubFiles maxRetries att).1 = (searchLoop att (maxRetries + 1) 0).1 := by
  rcases h : (searchLoop att (maxRetries + 1) 0).2 with _ | items <;>
    simp [searchGitHubFiles, h]

/-- C6: an invocation whose search succeeds with zero locators returns the
clean empty summary — zero processed files, empty source list, no error —
and its trace holds no fetch attempt, no payload decode and no storage
write: the worker pool is never entered. -/
theorem scan_zero_candidates (env : PipelineEnv) (initResult : Option String)
    (token : String) (searchAtt : Nat → SearchOutcome)
    (attOf : FileItem → Nat → FetchOutcome) (repoName : String)
    (filenames : List String) (clock : Nat)
    (htoken : token ≠ "") (hrepo : repoName ≠ "")
    (hsearch : (searchGitHubFiles env.maxRetries searchAtt).2 = .ok []) :
    Scan env true initResult token searchAtt attOf repoName filenames clock =
      (.ok { processedFiles := 0, scanTime := clock, sourceRepo := repoName,
             sourceFiles := [] }, clock + 1,
        (searchGitHubFiles env.maxRetries searchAtt).1) ∧
    fetchAttemptCount
      (Scan env true initResult token searchAtt attOf repoName filenames
        clock).2.2 = 0 ∧
    decodeCount
      (Scan env true initResult token searchAtt attOf repoName filenames
        clock).2.2 = 0 ∧
    savedBatches
      (Scan env true initResult token searchAtt attOf repoName filenames
        clock).2.2 = [] := by
  have hphase := searchLoop_phase searchAtt (env.maxRetries + 1) 0
  rw [← searchGitHubFiles_fst] at hphase
  have hcounts := searchPhase_counts _ hphase
  have hrun : Scan env true initResult token searchAtt attOf repoName
      filenames clock =
      (.ok { processedFiles := 0, scanTime := clock, sourceRepo := repoName,
             sourceFiles := [] }, clock + 1,
        (searchGitHubFiles env.maxRetries searchAtt).1) := by
    simp only [Scan]
    rw [if_neg htoken]
    simp only [buildGitHubSearchURL, if_neg hrepo]
    rw [hsearch]
    simp
  exact ⟨hrun, by rw [hrun]; exact hcounts.1, by rw [hrun]; exact hcounts.2.1,
    by rw [hrun]; exact hcounts.2.2⟩

/-- Witness for C6: a search that immediately returns zero items. -/
theorem scan_zero_candidates_witness :
    Scan demoEnv true none "token" (fun _ => .ok []) demoAtt "o/r" [] 0 =
      (.ok { processedFiles := 0, scanTime := 0, sourceRepo := "o/r",
             sourceFiles := [] }, 1,
        (searchGitHubFiles 2 (fun _ => .ok [])).1) ∧
    savedBatches
      (Scan demoEnv true none "token" (fun _ => .ok []) demoAtt "o/r" []
        0).2.2 = [] := by
  have h := scan_zero_candidates demoEnv none "token" (fun _ => .ok [])
    demoAtt "o/r" [] 0 (by decide) (by decide) rfl
  exact ⟨h.1, h.2.2.2⟩

/-- C8 amended: a fetched payload that fails to decode is decoded exactly
once — the failure triggers no further fetch attempt and no second decode —
and the per-unit error recorded by the coordinator is the parse error tagged
with the file path and carrying the whole offending payload (the code embeds
`string(data)` in full; the spec's "truncated view" does not hold, see the
counterexample). -/
theorem parse_error_full_payload (env : PipelineEnv)
    (att : Nat → FetchOutcome) (item : FileItem) (clock : Nat) (body : String)
    (hbody : (fetchLoop att (env.maxRetries + 1) 0 "").2 = body)
    (hdec : env.decode body = none) :
    (processFile env att item clock).1 = Except.error (.parseError body) ∧
    (processFile env att item clock).2.2 =
      (fetchLoop att (env.maxRetries + 1) 0 "").1 ++ [.decodeFile body] ∧
    decodeCount (processFile env att item clock).2.2 = 1 ∧
    failedUnits (unitResults env (fun _ => att) [item] clock) =
      [(item.path, .parseError body)] := by
  have hpf : processFile env att item clock =
      (Except.error (.parseError body), clock,
        (fetchLoop att (env.maxRetries + 1) 0 "").1 ++ [.decodeFile body]) := by
    simp only [processFile, hbody, hdec]
  refine ⟨by rw [hpf], by rw [hpf], ?_, ?_⟩
  · rw [hpf]
    have h0 :=
      (fetchPhase_counts _ (fetchLoop_phase att (env.maxRetries + 1) 0 "")).1
    rw [decodeCount_append, h0]
    rfl
  · simp [unitResults, failedUnits, hpf]

set_option maxRecDepth 4000 in
/-- C8 is false on its "truncated view" part: a 300-character payload that
fails to decode is embedded in the per-unit parse error in full, not
truncated. -/
theorem parse_error_not_truncated :
    (processFile demoRejectEnv
        (fun _ => .ok (String.mk (List.replicate 300 'x')))
        (demoItem "a") 0).1 =
      Except.error (.parseError (String.mk (List.replicate 300 'x'))) ∧
    (String.mk (List.replicate 300 'x')).length = 300 := by
  exact ⟨rfl, by simp [String.length]⟩

/-- Witness for C8's amended claim. -/
theorem parse_error_full_payload_witness :
    (processFile demoRejectEnv (fun _ => .ok "bad") (demoItem "a") 0).1 =
      Except.error (.parseError "bad") ∧
    failedUnits (unitResults demoRejectEnv
        (fun _ _ => FetchOutcome.ok "bad") [demoItem "a"] 0) =
      [((demoItem "a").path, .parseError "bad")] := by
  have h := parse_error_full_payload demoRejectEnv (fun _ => .ok "bad")
    (demoItem "a") 0 "bad" rfl rfl
  exact ⟨h.1, h.2.2.2⟩

/-- C9: the admission gate bounds the units simultaneously in their
fetch/parse/store phase by `CONCURRENCY` in every reachable state; at
saturation the only possible step is a completion, which preserves the
pending count — the submitter blocks, no unit is rejected — and once a unit
completes the blocked submission becomes enabled again. -/
theorem pool_bound_and_blocking (conc n : Nat) :
    (∀ s, PoolReachable conc n s → s.inFlight ≤ conc) ∧
    (∀ s s', s.inFlight = conc → PoolStep conc s s' →
      s' = ⟨s.pending, conc - 1, s.completed + 1⟩) ∧
    (∀ s : PoolState, s.inFlight = conc → 0 < s.pending → 0 < conc →
      PoolStep conc (⟨s.pending, conc - 1, s.completed + 1⟩ : PoolState)
        ⟨s.pending - 1, conc - 1 + 1, s.completed + 1⟩) := by
  refine ⟨?_, ?_, ?_⟩
  · intro s h
    induction h with
    | refl => simp
    | tail hr hstep ih =>
      cases hstep with
      | submit hp hin => simp; omega
      | complete hin => simp; omega
  · intro s s' heq hstep
    cases hstep with
    | submit hp hin => exact absurd hin (by omega)
    | complete hin => rw [heq]
  · intro s heq hp hc
    exact PoolStep.submit _ hp (by simp; omega)

/-- Witness for C9: `CONCURRENCY = 3`, 10 candidates: after three
submissions the state `⟨7, 3, 0⟩` is reachable and saturated; a completion
step keeps all 7 pending units, and afterwards a fourth submission can go. -/
theorem pool_bound_and_blocking_witness :
    (⟨7, 3, 0⟩ : PoolState).inFlight ≤ 3 ∧
    ((⟨7, 2, 1⟩ : PoolState) = ⟨7, 3 - 1, 0 + 1⟩) ∧
    PoolStep 3 ⟨7, 2, 1⟩ ⟨6, 3, 1⟩ := by
  have h := pool_bound_and_blocking 3 10
  refine ⟨?_, ?_, ?_⟩
  · apply h.1
    have s1 : PoolStep 3 ⟨10, 0, 0⟩ ⟨9, 1, 0⟩ :=
      PoolStep.submit ⟨10, 0, 0⟩ (by decide) (by decide)
    have s2 : PoolStep 3 ⟨9, 1, 0⟩ ⟨8, 2, 0⟩ :=
      PoolStep.submit ⟨9, 1, 0⟩ (by decide) (by decide)
    have s3 : PoolStep 3 ⟨8, 2, 0⟩ ⟨7, 3, 0⟩ :=
      PoolStep.submit ⟨8, 2, 0⟩ (by decide) (by decide)
    exact Relation.ReflTransGen.head s1 (Relation.ReflTransGen.head s2
      (Relation.ReflTransGen.head s3 Relation.ReflTransGen.refl))
  · exact h.2.1 ⟨7, 3, 0⟩ ⟨7, 2, 1⟩ rfl
      (PoolStep.complete ⟨7, 3, 0⟩ (by decide))
  · exact h.2.2 ⟨7, 3, 0⟩ rfl (by decide) (by decide)

end VulScanner
